import Mathlib

/-!
# Verification of the `fuzzydate` library

A shallow embedding of `src/fuzzydate/fuzzydate.py` (class `fuzzydate(date)`)
together with the pieces of Python semantics it relies on:

* Python strings are modelled as `List Char`; the built-in `int(s)` parser is
  modelled by `pyInt`: surrounding whitespace (the `Py_UNICODE_ISSPACE`
  set), an optional sign, and decimal digits with CPython's underscore
  rules, where a decimal digit is any character of Unicode category `Nd`
  (the 66 ten-character runs of `pyDigitRunStarts`), not only ASCII —
  CPython accepts, e.g., Arabic-Indic digits. The `%04d` / `%02d` format
  operators are modelled by `pyFormat0d`; the substring test `a in b` by
  `isSub`.
* The superclass `datetime.date` is modelled by its stored field triple
  (`date`), its field validation (`date.valid`, calendar validity with leap
  years and the `MINYEAR = 1`/`MAXYEAR = 9999` year range), and its
  state-based comparison and hashing (`date.cmpEq`, `date.cmpLt`,
  `date.stateHash`), all of which look only at the stored
  `(year, month, day)` triple.
* Exceptions are modelled by `Err`, one constructor per raise site, carrying
  the message the source builds.
-/

/-- The code points CPython's `int(str)` strips around a number and
`str.strip` removes: the `Py_UNICODE_ISSPACE` set (ASCII whitespace plus
the Unicode space characters). -/
def pyWsCodes : List Nat :=
  [9, 10, 11, 12, 13, 28, 29, 30, 31, 32, 133, 160, 5760, 8192, 8193, 8194,
   8195, 8196, 8197, 8198, 8199, 8200, 8201, 8202, 8232, 8233, 8239, 8287, 12288]

/-- Is the character whitespace for CPython's `int(str)` and `str.strip`? -/
def isPyWs (c : Char) : Bool := pyWsCodes.contains c.toNat

/-- Python `s.strip()`: drop whitespace at both ends. -/
def pyStrip (cs : List Char) : List Char :=
  ((cs.dropWhile isPyWs).reverse.dropWhile isPyWs).reverse

/-- The start code points of the Unicode category `Nd` (decimal digit)
runs, each run ten consecutive characters with decimal values `0..9`.
These are the characters CPython's `int()` accepts as digits
(Unicode 14.0, as shipped with CPython 3.11). -/
def pyDigitRunStarts : List Nat :=
  [48, 1632, 1776, 1984, 2406, 2534, 2662, 2790, 2918, 3046, 3174, 3302,
   3430, 3558, 3664, 3792, 3872, 4160, 4240, 6112, 6160, 6470, 6608, 6784,
   6800, 6992, 7088, 7232, 7248, 42528, 43216, 43264, 43472, 43504, 43600,
   44016, 65296, 66720, 68912, 69734, 69872, 69942, 70096, 70384, 70736,
   70864, 71248, 71360, 71472, 71904, 72016, 72784, 73040, 73120, 92768,
   92864, 93008, 120782, 120792, 120802, 120812, 120822, 123200, 123632,
   125264, 130032]

/-- The decimal value CPython's `int()` assigns to a character: its offset
inside the Unicode decimal-digit run containing it, `none` for a
non-digit. -/
def pyDigitVal (c : Char) : Option Nat :=
  (pyDigitRunStarts.find? (fun r => r ≤ c.toNat && c.toNat < r + 10)).map
    (fun r => c.toNat - r)

/-- Is the character a Unicode decimal digit (category `Nd`)? -/
def isPyDigit (c : Char) : Bool := (pyDigitVal c).isSome

/-- Decimal value of a digit string (most significant first). -/
def foldDigits (cs : List Char) : Nat :=
  cs.foldl (fun acc c => 10 * acc + (pyDigitVal c).getD 0) 0

/-- Is the first character of the list a Unicode decimal digit? -/
def headDigit (cs : List Char) : Bool :=
  match cs with
  | [] => false
  | c :: _ => isPyDigit c

/-- No two adjacent underscores (CPython rejects `1__2`). -/
def noDoubleUS (cs : List Char) : Bool :=
  match cs with
  | [] => true
  | [_] => true
  | a :: b :: rest => !(a == '_' && b == '_') && noDoubleUS (b :: rest)

/-- CPython's unsigned decimal literal body: nonempty, Unicode decimal
digits possibly separated by single underscores that sit between two
digits. -/
def pyNat (cs : List Char) : Option Nat :=
  if (!cs.isEmpty) && cs.all (fun c => isPyDigit c || c == '_')
      && headDigit cs && headDigit cs.reverse && noDoubleUS cs then
    some (foldDigits (cs.filter (fun c => !(c == '_'))))
  else
    none

/-- CPython `int(s)`: strip whitespace, optional single sign, decimal body.
Returns `none` where CPython raises `ValueError`. -/
def pyInt (cs : List Char) : Option Int :=
  let t := pyStrip cs
  if t.getD 0 ' ' == '+' then
    (pyNat (t.drop 1)).map Int.ofNat
  else if t.getD 0 ' ' == '-' then
    (pyNat (t.drop 1)).map (fun n => -(n : Int))
  else
    (pyNat t).map Int.ofNat

/-- Recursion core for `decDigits`, structural over a fuel bound so that it
reduces definitionally; the fuel only needs to exceed the argument. -/
def decDigitsAux : Nat → Nat → List Char
  | 0, _ => []
  | fuel + 1, n =>
    if n < 10 then [Char.ofNat (48 + n)]
    else decDigitsAux fuel (n / 10) ++ [Char.ofNat (48 + n % 10)]

/-- Decimal digit characters of `n`, most significant first
(the digits of Python `str(n)` for a nonnegative `n`). -/
def decDigits (n : Nat) : List Char := decDigitsAux (n + 1) n

/-- Left-pad with `'0'` to width `w` (the zero fill of `%0wd`). -/
def zfill (w : Nat) (ds : List Char) : List Char :=
  List.replicate (w - ds.length) '0' ++ ds

/-- Python `"%0wd" % n`: decimal rendering zero-padded to width `w`, the sign
in front of the padding for a negative `n`. -/
def pyFormat0d (w : Nat) (n : Int) : List Char :=
  if n < 0 then
    '-' :: zfill (w - 1) (decDigits n.natAbs)
  else
    zfill w (decDigits n.natAbs)

/-- Does `needle` occur at the start of `hay`? -/
def startsWith : List Char → List Char → Bool
  | [], _ => true
  | _ :: _, [] => false
  | a :: as, b :: bs => a == b && startsWith as bs

/-- Python's `needle in hay` substring test. -/
def isSub (needle hay : List Char) : Bool :=
  startsWith needle hay ||
    match hay with
    | [] => false
    | _ :: t => isSub needle t

/-- `string.digits` from the Python standard library. -/
def pyDigits : List Char := ['0', '1', '2', '3', '4', '5', '6', '7', '8', '9']

/-- Python `str` of an `int` (`f"{n}"`). -/
def pyIntStr (n : Int) : String := toString n

/-- Python `str` of an `int | None` value as interpolated by an f-string. -/
def pyShowOpt (x : Option Int) : String :=
  match x with
  | none => "None"
  | some n => pyIntStr n

/-- The stored state of a `datetime.date`: the exact `(year, month, day)`
triple. -/
structure date where
  year : Int
  month : Int
  day : Int
deriving DecidableEq

/-- `datetime`'s leap-year test (`year % 4 == 0 and (year % 100 != 0 or
year % 400 == 0)`). -/
def date.isLeap (y : Int) : Bool :=
  y % 4 == 0 && (y % 100 != 0 || y % 400 == 0)

/-- `datetime`'s days-in-month table, leap Februaries included. -/
def date.daysInMonth (y m : Int) : Int :=
  if m == 2 then (if date.isLeap y then 29 else 28)
  else if m == 4 || m == 6 || m == 9 || m == 11 then 30
  else 31

/-- `datetime.date`'s field validation (`_check_date_fields`): year in
`MINYEAR = 1 .. MAXYEAR = 9999`, month in `1..12`, day in `1..days in
month`. `date(y, m, d)` succeeds exactly when this holds. -/
def date.valid (y m d : Int) : Bool :=
  1 ≤ y && y ≤ 9999 && 1 ≤ m && m ≤ 12 && 1 ≤ d && d ≤ date.daysInMonth y m

/-- `datetime.date.__eq__`: compares the stored states. -/
def date.cmpEq (a b : date) : Bool :=
  a.year == b.year && a.month == b.month && a.day == b.day

/-- `datetime.date.__lt__`: lexicographic comparison of the stored
`(year, month, day)` states. -/
def date.cmpLt (a b : date) : Bool :=
  a.year < b.year ||
    (a.year == b.year && (a.month < b.month ||
      (a.month == b.month && a.day < b.day)))

/-- `datetime.date.__hash__` hashes the packed stored state bytes; what
matters for the claims is only that it is a function of the stored triple,
so any injective encoding models it. -/
def date.stateHash (a : date) : Int :=
  (a.year * 32 + a.month) * 32 + a.day

/-- The `fuzzydate` value: the stored `date` fields plus the two fuzziness
flags set by `__new__` (slots `_fuzzy_month`, `_fuzzy_day`). -/
structure fuzzydate where
  year : Int
  month : Int
  day : Int
  fuzzy_month : Bool
  fuzzy_day : Bool
deriving DecidableEq

/-- The error taxonomy: one kind per distinct raise condition. -/
inductive ErrKind where
  | invalidCombination
  | invalidDate
  | notSupported
  | typeError
  | invalidLength
  | invalidSeparator
  | inconsistentMarker
  | invalidYear
  | invalidMarker
deriving DecidableEq

/-- A raised exception: its kind and, for the raises written in
`fuzzydate.py` itself, the exact message the source builds.
`invalidDate` is raised inside `datetime.date.__new__`, whose message text
is CPython's, so it carries none. -/
inductive Err where
  | invalidCombination (msg : String)
  | invalidDate
  | notSupported (msg : String)
  | typeError (msg : String)
  | invalidLength (msg : String)
  | invalidSeparator (msg : String)
  | inconsistentMarker (msg : String)
  | invalidYear (msg : String)
  | invalidMarker (msg : String)
deriving DecidableEq

deriving instance DecidableEq for Except

/-- Kind of an exception. -/
def Err.kind : Err → ErrKind
  | .invalidCombination _ => .invalidCombination
  | .invalidDate => .invalidDate
  | .notSupported _ => .notSupported
  | .typeError _ => .typeError
  | .invalidLength _ => .invalidLength
  | .invalidSeparator _ => .invalidSeparator
  | .inconsistentMarker _ => .inconsistentMarker
  | .invalidYear _ => .invalidYear
  | .invalidMarker _ => .invalidMarker

/-- The kind of exception a computation raised, `none` if it returned. -/
def errKindOf {α : Type} : Except Err α → Option ErrKind
  | .error e => some e.kind
  | .ok _ => none

/-- `fuzzydate.__new__`: fuzzy flags from absent arguments, the
month-absent/day-present combination rejected first, absent fields then
stored as `1`, and the final triple checked by `date.__new__`. -/
def fuzzydate.new (year : Int) (month day : Option Int) : Except Err fuzzydate :=
  let fuzzy_month := month.isNone
  let fuzzy_day := day.isNone
  if fuzzy_month && !fuzzy_day then
    .error (.invalidCombination
      ("A date cannot have a fuzzy month and a defined day: (" ++ pyIntStr year
        ++ ", " ++ pyShowOpt month ++ ", " ++ pyShowOpt day ++ ")"))
  else
    let m := month.getD 1
    let d := day.getD 1
    if date.valid year m d then
      .ok ⟨year, m, d, fuzzy_month, fuzzy_day⟩
    else
      .error .invalidDate

/-- The argument of `fuzzy_fromisoformat` before the `isinstance` test: a
`str`, or a value of any other type. -/
inductive PyObj where
  | str (s : List Char)
  | nonStr
deriving DecidableEq

/-- The day-field step of `fuzzy_fromisoformat`: try `int(dd)`; on failure
the two characters must coincide (the marker), else
`Inconsistent marker usage` is raised; the day is then absent. -/
def parseDayField (s dd : List Char) : Except Err (Option Int) :=
  match pyInt dd with
  | some d => .ok (some d)
  | none =>
    if !(dd.getD 0 ' ' == dd.getD 1 ' ') then
      .error (.inconsistentMarker
        ("Inconsistent marker usage in fuzzy date: " ++ String.mk s))
    else
      .ok none

/-- The month-field step of `fuzzy_fromisoformat`: try `int(mm)`; on failure
the two characters must coincide and, when the day was absent, also match
the day's marker, else `Inconsistent marker usage` is raised; the month is
then absent. -/
def parseMonthField (s mm dd : List Char) (day : Option Int) : Except Err (Option Int) :=
  match pyInt mm with
  | some m => .ok (some m)
  | none =>
    if !(mm.getD 0 ' ' == mm.getD 1 ' ')
        || (day == none && !(mm.getD 0 ' ' == dd.getD 0 ' ')) then
      .error (.inconsistentMarker
        ("Inconsistent marker usage in fuzzy date: " ++ String.mk s))
    else
      .ok none

/-- The year-field step of `fuzzy_fromisoformat`: `int(yyyy)`, with failure
re-raised as `Invalid year`. -/
def parseYearField (yyyy : List Char) : Except Err Int :=
  match pyInt yyyy with
  | some y => .ok y
  | none => .error (.invalidYear ("Invalid year: " ++ String.mk yyyy))

/-- `fuzzydate.fuzzy_fromisoformat`: type test, length test, the two
separator positions in order, then day field, month field, year field, and
finally the constructor. -/
def fuzzy_fromisoformat (x : PyObj) : Except Err fuzzydate :=
  match x with
  | .nonStr => .error (.typeError "fuzzy_fromisoformat: argument must be str")
  | .str s =>
    if !(s.length == 10) then
      .error (.invalidLength ("Invalid fuzzy isoformat string: " ++ String.mk s))
    else if !(s.getD 4 ' ' == '-') then
      .error (.invalidSeparator ("Invalid date separator: " ++ String.mk [s.getD 4 ' ']))
    else if !(s.getD 7 ' ' == '-') then
      .error (.invalidSeparator ("Invalid date separator: " ++ String.mk [s.getD 7 ' ']))
    else
      let yyyy := s.take 4
      let mm := (s.drop 5).take 2
      let dd := (s.drop 8).take 2
      do
        let day ← parseDayField s dd
        let month ← parseMonthField s mm dd day
        let year ← parseYearField yyyy
        fuzzydate.new year month day

/-- `fuzzydate.fromisoformat`: disabled, always raises. -/
def fromisoformat (_x : PyObj) : Except Err fuzzydate :=
  .error (.notSupported
    "`fromisoformat` is not supported for fuzzy dates; use `fuzzy_fromisoformat` instead")

/-- `fuzzydate.isoformat`: disabled, always raises. -/
def isoformat (_fd : fuzzydate) : Except Err (List Char) :=
  .error (.notSupported
    "`isoformat` is not supported for fuzzy dates; use `fuzzy_isoformat` instead")

/-- `fuzzydate.fuzzy_isoformat`: reject a marker that is not a single
non-digit character (`len(marker) != 1 or marker in string.digits`), then
`"%04d"` for the year and, per field, the doubled marker when fuzzy or
`"%02d"` of the stored value, joined with `-`. -/
def fuzzy_isoformat (fd : fuzzydate) (marker : List Char) : Except Err (List Char) :=
  if marker.length != 1 || isSub marker pyDigits then
    .error (.invalidMarker
      ("Invalid fuzzy marker: " ++ String.mk marker
        ++ " (must be a single non-digit character)"))
  else
    let yyyy := pyFormat0d 4 fd.year
    let mm := if fd.fuzzy_month then marker ++ marker else pyFormat0d 2 fd.month
    let dd := if fd.fuzzy_day then marker ++ marker else pyFormat0d 2 fd.day
    .ok (yyyy ++ ['-'] ++ mm ++ ['-'] ++ dd)

/-- `fuzzydate.__str__`, the alias `__str__ = fuzzy_isoformat` called with
the default marker `"?"`. -/
def pyStr (fd : fuzzydate) : Except Err (List Char) :=
  fuzzy_isoformat fd ['?']

/-- `fuzzydate.__repr__`: the qualified class name and the three logical
fields, a fuzzy field shown as `None` instead of the stored `1`. -/
def pyRepr (fd : fuzzydate) : String :=
  "fuzzydate(" ++ pyIntStr fd.year ++ ", "
    ++ pyShowOpt (if fd.fuzzy_month then none else some fd.month) ++ ", "
    ++ pyShowOpt (if fd.fuzzy_day then none else some fd.day) ++ ")"

/-- The `date` state a `fuzzydate` carries: what every inherited
`datetime.date` operation sees. -/
def toDate (fd : fuzzydate) : date :=
  ⟨fd.year, fd.month, fd.day⟩

/-- `==` on `fuzzydate`, inherited from `datetime.date`: it reads only the
stored state. -/
def pyEq (a b : fuzzydate) : Bool :=
  date.cmpEq (toDate a) (toDate b)

/-- `<` on `fuzzydate`, inherited from `datetime.date`. -/
def pyLt (a b : fuzzydate) : Bool :=
  date.cmpLt (toDate a) (toDate b)

/-- `hash` on `fuzzydate`, inherited from `datetime.date`: a function of the
stored state only. -/
def pyHash (a : fuzzydate) : Int :=
  date.stateHash (toDate a)

/-- The logical month: `None` when fuzzy, the stored value otherwise. -/
def logicalMonth (fd : fuzzydate) : Option Int :=
  if fd.fuzzy_month then none else some fd.month

/-- The logical day: `None` when fuzzy, the stored value otherwise. -/
def logicalDay (fd : fuzzydate) : Option Int :=
  if fd.fuzzy_day then none else some fd.day

/-- The construction invariants of §3 of the design: flag implication,
placeholder `1` in fuzzy fields, and calendar validity of the stored
triple. -/
def FdInv (fd : fuzzydate) : Prop :=
  (fd.fuzzy_month = true → fd.fuzzy_day = true) ∧
  (fd.fuzzy_month = true → fd.month = 1) ∧
  (fd.fuzzy_day = true → fd.day = 1) ∧
  date.valid fd.year fd.month fd.day = true

/-! ## `string.digits` membership agrees with `Char.isDigit` -/

lemma mem_pyDigits_isDigit (c : Char) (h : c ∈ pyDigits) : c.isDigit = true := by
  simp only [pyDigits, List.mem_cons, List.not_mem_nil, or_false] at h
  rcases h with h | h | h | h | h | h | h | h | h | h <;> subst h <;> decide

lemma isDigit_mem_pyDigits (c : Char) (h : c.isDigit = true) : c ∈ pyDigits := by
  simp only [Char.isDigit, Bool.and_eq_true, decide_eq_true_eq, ge_iff_le] at h
  obtain ⟨h1, h2⟩ := h
  have hv1 : 48 ≤ c.val.toNat := UInt32.le_toNat_of_le (by decide) h1
  have hv2 : c.val.toNat ≤ 57 := UInt32.toNat_le_of_le (by decide) h2
  have hd : ∀ d : Char, c.val.toNat = d.val.toNat → c = d := by
    intro d hcd
    exact Char.ext (UInt32.toNat.inj hcd)
  simp only [pyDigits, List.mem_cons, List.not_mem_nil, or_false]
  interval_cases hval : c.val.toNat
  · exact Or.inl (hd '0' (by decide))
  · exact Or.inr (Or.inl (hd '1' (by decide)))
  · exact Or.inr (Or.inr (Or.inl (hd '2' (by decide))))
  · exact Or.inr (Or.inr (Or.inr (Or.inl (hd '3' (by decide)))))
  · exact Or.inr (Or.inr (Or.inr (Or.inr (Or.inl (hd '4' (by decide))))))
  · exact Or.inr (Or.inr (Or.inr (Or.inr (Or.inr (Or.inl (hd '5' (by decide)))))))
  · exact Or.inr (Or.inr (Or.inr (Or.inr (Or.inr (Or.inr (Or.inl (hd '6' (by decide))))))))
  · exact Or.inr (Or.inr (Or.inr (Or.inr (Or.inr (Or.inr (Or.inr (Or.inl (hd '7' (by decide)))))))))
  · exact Or.inr (Or.inr (Or.inr (Or.inr (Or.inr (Or.inr (Or.inr (Or.inr (Or.inl (hd '8' (by decide))))))))))
  · exact Or.inr (Or.inr (Or.inr (Or.inr (Or.inr (Or.inr (Or.inr (Or.inr (Or.inr (hd '9' (by decide))))))))))

lemma isSub_single_digits (c : Char) : isSub [c] pyDigits = c.isDigit := by
  have hexp : isSub [c] pyDigits =
      ((c == '0') || (c == '1') || (c == '2') || (c == '3') || (c == '4') || (c == '5')
        || (c == '6') || (c == '7') || (c == '8') || (c == '9')) := by
    simp [isSub, startsWith, pyDigits, Bool.or_assoc]
  rw [hexp]
  by_cases h : c.isDigit = true
  · rw [h]
    have := isDigit_mem_pyDigits c h
    simp only [pyDigits, List.mem_cons, List.not_mem_nil, or_false] at this
    rcases this with h | h | h | h | h | h | h | h | h | h <;> subst h <;> decide
  · have h' : c.isDigit = false := by simpa using h
    rw [h']
    have hne : ∀ d : Char, d.isDigit = true → (c == d) = false := by
      intro d hdd
      by_contra hc
      have : c = d := beq_iff_eq.mp (Bool.not_eq_false _ |>.mp hc)
      subst this
      rw [hdd] at h'
      simp at h'
    rw [hne '0' (by decide), hne '1' (by decide), hne '2' (by decide), hne '3' (by decide),
      hne '4' (by decide), hne '5' (by decide), hne '6' (by decide), hne '7' (by decide),
      hne '8' (by decide), hne '9' (by decide)]
    rfl


lemma isPyDigit_of_isDigit (c : Char) (h : c.isDigit = true) : isPyDigit c = true := by
  have hm := isDigit_mem_pyDigits c h
  simp only [pyDigits, List.mem_cons, List.not_mem_nil, or_false] at hm
  rcases hm with h1 | h1 | h1 | h1 | h1 | h1 | h1 | h1 | h1 | h1 <;> subst h1 <;> decide

lemma isDigit_false_of_isPyDigit_false (c : Char) (h : isPyDigit c = false) :
    c.isDigit = false := by
  by_contra hc
  have hc2 : c.isDigit = true := by simpa using hc
  rw [isPyDigit_of_isDigit c hc2] at h
  exact absurd h (by decide)

/-! ## Decimal rendering and parsing lemmas -/

lemma decChar_spec (n : Nat) (h : n < 10) :
    (Char.ofNat (48 + n)).isDigit = true ∧ (pyDigitVal (Char.ofNat (48 + n))).getD 0 = n := by
  interval_cases n <;> exact ⟨by decide, by decide⟩

lemma decDigitsAux_irrel (n : Nat) : ∀ f1 f2, n < f1 → n < f2 →
    decDigitsAux f1 n = decDigitsAux f2 n := by
  induction n using Nat.strong_induction_on with
  | _ n ih =>
    intro f1 f2 h1 h2
    match f1, f2, h1, h2 with
    | a + 1, b + 1, _, _ =>
      rw [decDigitsAux, decDigitsAux]
      split
      · rfl
      · next h =>
        have hdiv : n / 10 < n :=
          Nat.div_lt_self (Nat.lt_of_lt_of_le (by decide) (Nat.le_of_not_lt h)) (by decide)
        rw [ih (n / 10) hdiv a b (by omega) (by omega)]

lemma decDigits_eq (n : Nat) : decDigits n =
    if n < 10 then [Char.ofNat (48 + n)]
    else decDigits (n / 10) ++ [Char.ofNat (48 + n % 10)] := by
  rw [decDigits, decDigitsAux]
  split
  · rfl
  · next h =>
    have hdiv : n / 10 < n :=
      Nat.div_lt_self (Nat.lt_of_lt_of_le (by decide) (Nat.le_of_not_lt h)) (by decide)
    rw [decDigits, decDigitsAux_irrel (n / 10) n (n / 10 + 1) (by omega) (by omega)]

lemma decDigits_ne_nil (n : Nat) : decDigits n ≠ [] := by
  rw [decDigits_eq]
  split <;> simp

lemma decDigits_all_digit (n : Nat) : ∀ c ∈ decDigits n, c.isDigit = true := by
  induction n using Nat.strong_induction_on with
  | _ n ih =>
    rw [decDigits_eq]
    split
    · next h =>
      intro c hc
      simp only [List.mem_singleton] at hc
      subst hc
      exact (decChar_spec n h).1
    · next h =>
      intro c hc
      rw [List.mem_append] at hc
      rcases hc with hc | hc
      · exact ih (n / 10)
          (Nat.div_lt_self (Nat.lt_of_lt_of_le (by decide) (Nat.le_of_not_lt h)) (by decide)) c hc
      · simp only [List.mem_singleton] at hc
        subst hc
        exact (decChar_spec (n % 10) (Nat.mod_lt n (by decide))).1

lemma foldDigits_append_single (ds : List Char) (c : Char) :
    foldDigits (ds ++ [c]) = 10 * foldDigits ds + (pyDigitVal c).getD 0 := by
  simp [foldDigits, List.foldl_append]

lemma foldDigits_decDigits (n : Nat) : foldDigits (decDigits n) = n := by
  induction n using Nat.strong_induction_on with
  | _ n ih =>
    rw [decDigits_eq]
    split
    · next h =>
      simp [foldDigits, (decChar_spec n h).2]
    · next h =>
      rw [foldDigits_append_single,
        ih (n / 10)
          (Nat.div_lt_self (Nat.lt_of_lt_of_le (by decide) (Nat.le_of_not_lt h)) (by decide)),
        (decChar_spec (n % 10) (Nat.mod_lt n (by decide))).2]
      omega

lemma decDigits_length_le (k : Nat) : ∀ n, n < 10 ^ k → 1 ≤ k → (decDigits n).length ≤ k := by
  induction k with
  | zero => intro n _ hk; omega
  | succ k ih =>
    intro n hn _
    rw [decDigits_eq]
    split
    · simp
    · next h =>
      have hk1 : 1 ≤ k := by
        by_contra hk0
        have : k = 0 := by omega
        subst this
        simp [pow_succ] at hn
        omega
      have hdiv : n / 10 < 10 ^ k := by
        rw [Nat.div_lt_iff_lt_mul (by decide)]
        calc n < 10 ^ (k + 1) := hn
        _ = 10 ^ k * 10 := by rw [pow_succ]
      have := ih (n / 10) hdiv hk1
      simp only [List.length_append, List.length_singleton]
      omega

lemma foldDigits_zeros_append (k : Nat) (ds : List Char) :
    foldDigits (List.replicate k '0' ++ ds) = foldDigits ds := by
  induction k with
  | zero => simp
  | succ k ih =>
    simpa [foldDigits, List.replicate_succ,
      (by decide : (pyDigitVal '0').getD 0 = 0)] using ih

lemma zfill_length (w : Nat) (ds : List Char) (h : ds.length ≤ w) :
    (zfill w ds).length = w := by
  simp [zfill]
  omega

lemma zfill_all_digit (w : Nat) (ds : List Char) (h : ∀ c ∈ ds, c.isDigit = true) :
    ∀ c ∈ zfill w ds, c.isDigit = true := by
  intro c hc
  rw [zfill, List.mem_append] at hc
  rcases hc with hc | hc
  · rw [List.eq_of_mem_replicate hc]; decide
  · exact h c hc

lemma digit_not_underscore (c : Char) (h : c.isDigit = true) : (c == '_') = false := by
  by_contra hc
  have : c = '_' := by
    have := Bool.not_eq_false (c == '_') |>.mp hc
    exact beq_iff_eq.mp this
  subst this
  simp [Char.isDigit] at h

lemma digit_not_pyWs (c : Char) (h : c.isDigit = true) : isPyWs c = false := by
  have hm := isDigit_mem_pyDigits c h
  simp only [pyDigits, List.mem_cons, List.not_mem_nil, or_false] at hm
  rcases hm with h1 | h1 | h1 | h1 | h1 | h1 | h1 | h1 | h1 | h1 <;> subst h1 <;> decide

lemma noDoubleUS_of_all_digit (ds : List Char) (h : ∀ c ∈ ds, c.isDigit = true) :
    noDoubleUS ds = true := by
  induction ds with
  | nil => rfl
  | cons a t ih =>
    match t with
    | [] => rfl
    | b :: rest =>
      rw [noDoubleUS]
      have ha := digit_not_underscore a (h a (by simp))
      have ht : noDoubleUS (b :: rest) = true := ih (fun c hc => h c (by simp [hc]))
      simp [ha, ht]

lemma pyNat_digits (ds : List Char) (hne : ds ≠ []) (h : ∀ c ∈ ds, c.isDigit = true) :
    pyNat ds = some (foldDigits ds) := by
  rw [pyNat]
  have h1 : ds.isEmpty = false := by simp [List.isEmpty_iff, hne]
  have h2 : ds.all (fun c => isPyDigit c || c == '_') = true := by
    rw [List.all_eq_true]
    intro c hc
    simp [isPyDigit_of_isDigit c (h c hc)]
  have h3 : headDigit ds = true := by
    match ds, hne with
    | c :: t, _ => exact isPyDigit_of_isDigit c (h c (by simp))
  have h4 : headDigit ds.reverse = true := by
    have hrne : ds.reverse ≠ [] := by simp [hne]
    match hr : ds.reverse, hrne with
    | c :: t, _ =>
      rw [headDigit]
      have : c ∈ ds := by
        rw [← List.mem_reverse, hr]
        simp
      exact isPyDigit_of_isDigit c (h c this)
  have h5 : noDoubleUS ds = true := noDoubleUS_of_all_digit ds h
  have h6 : ds.filter (fun c => !(c == '_')) = ds := by
    rw [List.filter_eq_self]
    intro c hc
    simp [digit_not_underscore c (h c hc)]
  rw [h1, h2, h3, h4, h5]
  simp [h6]

lemma dropWhile_pyWs_of_head_digit (c : Char) (t : List Char) (h : c.isDigit = true) :
    (c :: t).dropWhile isPyWs = c :: t := by
  rw [List.dropWhile_cons, digit_not_pyWs c h]
  simp

lemma pyStrip_digits (ds : List Char) (hne : ds ≠ []) (h : ∀ c ∈ ds, c.isDigit = true) :
    pyStrip ds = ds := by
  rw [pyStrip]
  have h1 : ds.dropWhile isPyWs = ds := by
    match ds, hne with
    | c :: t, _ => exact dropWhile_pyWs_of_head_digit c t (h c (by simp))
  rw [h1]
  have hrne : ds.reverse ≠ [] := by simp [hne]
  have h2 : ds.reverse.dropWhile isPyWs = ds.reverse := by
    match hr : ds.reverse, hrne with
    | c :: t, _ =>
      have : c ∈ ds := by
        rw [← List.mem_reverse, hr]
        simp
      exact dropWhile_pyWs_of_head_digit c t (h c this)
  rw [h2, List.reverse_reverse]

lemma pyInt_digits (ds : List Char) (hne : ds ≠ []) (h : ∀ c ∈ ds, c.isDigit = true) :
    pyInt ds = some (Int.ofNat (foldDigits ds)) := by
  rw [pyInt, pyStrip_digits ds hne h]
  have hd : ∀ d : Char, d.isDigit = false → (ds.getD 0 ' ' == d) = false := by
    intro d hdd
    match ds, hne with
    | c :: t, _ =>
      have hc := h c (by simp)
      by_contra hcc
      have : c = d := by
        have := Bool.not_eq_false _ |>.mp hcc
        exact beq_iff_eq.mp this
      subst this
      rw [hc] at hdd
      simp at hdd
  rw [hd '+' (by decide), hd '-' (by decide)]
  simp [pyNat_digits ds hne h]

/-! ## `%0wd` formatting round-trips through `int` -/

lemma format0d_spec (w : Nat) (n : Int) (h0 : 0 ≤ n) (hlt : n.natAbs < 10 ^ w) (hw : 1 ≤ w) :
    (pyFormat0d w n).length = w ∧ (∀ c ∈ pyFormat0d w n, c.isDigit = true) ∧
      pyInt (pyFormat0d w n) = some n := by
  rw [pyFormat0d, if_neg (by omega)]
  have hlen := decDigits_length_le w n.natAbs hlt hw
  have hall := zfill_all_digit w (decDigits n.natAbs) (decDigits_all_digit n.natAbs)
  have hne : zfill w (decDigits n.natAbs) ≠ [] := by
    have := zfill_length w (decDigits n.natAbs) hlen
    intro hnil
    rw [hnil] at this
    simp at this
    omega
  refine ⟨zfill_length w (decDigits n.natAbs) hlen, hall, ?_⟩
  rw [pyInt_digits _ hne hall, zfill, foldDigits_zeros_append, foldDigits_decDigits]
  have : (Int.ofNat n.natAbs) = n := Int.natAbs_of_nonneg h0
  rw [this]

lemma length_four_shape (ds : List Char) (h : ds.length = 4) :
    ∃ a b c d, ds = [a, b, c, d] := by
  match ds with
  | [a, b, c, d] => exact ⟨a, b, c, d, rfl⟩

lemma length_two_shape (ds : List Char) (h : ds.length = 2) :
    ∃ a b, ds = [a, b] := by
  match ds with
  | [a, b] => exact ⟨a, b, rfl⟩

/-! ## A doubled non-digit marker never parses as an `int` -/

lemma pyNat_none_of_head_not_digit (ds : List Char) (h : headDigit ds = false) :
    pyNat ds = none := by
  rw [pyNat, h]
  simp

lemma pyInt_pair_none (c : Char) (h : isPyDigit c = false) : pyInt [c, c] = none := by
  by_cases hws : isPyWs c = true
  · have hstrip : pyStrip [c, c] = [] := by
      rw [pyStrip]
      simp [List.dropWhile_cons, hws]
    rw [pyInt, hstrip]
    simp [pyNat]
  · have hws' : isPyWs c = false := by simp at hws; exact hws
    have hstrip : pyStrip [c, c] = [c, c] := by
      rw [pyStrip]
      simp [List.dropWhile_cons, hws']
    by_cases hp : c = '+'
    · subst hp; decide
    by_cases hm : c = '-'
    · subst hm; decide
    rw [pyInt, hstrip]
    simp only [List.getD_cons_zero]
    have hnat : pyNat [c, c] = none :=
      pyNat_none_of_head_not_digit [c, c] (by simp [headDigit, h])
    rw [if_neg (by simp [hp]), if_neg (by simp [hm]), hnat]
    rfl

/-! ## Characterizing the constructor and the parser -/

lemma ebind_ok {β γ : Type} (a : β) (f : β → Except Err γ) :
    (Except.ok a : Except Err β) >>= f = f a := rfl

lemma ebind_error {β γ : Type} (e : Err) (f : β → Except Err γ) :
    (Except.error e : Except Err β) >>= f = .error e := rfl

lemma new_ok_elim (y : Int) (m d : Option Int) (fd : fuzzydate)
    (h : fuzzydate.new y m d = .ok fd) :
    (m.isNone && !d.isNone) = false ∧ date.valid y (m.getD 1) (d.getD 1) = true ∧
      fd = ⟨y, m.getD 1, d.getD 1, m.isNone, d.isNone⟩ := by
  rw [fuzzydate.new] at h
  by_cases hc : (m.isNone && !d.isNone) = true
  · rw [if_pos hc] at h
    exact absurd h (by simp)
  · have hc2 : (m.isNone && !d.isNone) = false := by simpa using hc
    rw [if_neg hc] at h
    by_cases hv : date.valid y (m.getD 1) (d.getD 1) = true
    · rw [if_pos hv] at h
      have := Except.ok.inj h
      exact ⟨hc2, hv, this.symm⟩
    · rw [if_neg hv] at h
      exact absurd h (by simp)

lemma new_ok_intro (y : Int) (m d : Option Int)
    (hc : (m.isNone && !d.isNone) = false)
    (hv : date.valid y (m.getD 1) (d.getD 1) = true) :
    fuzzydate.new y m d = .ok ⟨y, m.getD 1, d.getD 1, m.isNone, d.isNone⟩ := by
  have hcn : ¬((m.isNone && !d.isNone) = true) := by
    rw [hc]
    intro hff
    exact absurd hff (by decide)
  rw [fuzzydate.new, if_neg hcn, if_pos hv]

lemma new_inv (y : Int) (m d : Option Int) (fd : fuzzydate)
    (h : fuzzydate.new y m d = .ok fd) : FdInv fd := by
  obtain ⟨hc, hv, hfd⟩ := new_ok_elim y m d fd h
  subst hfd
  refine ⟨?_, ?_, ?_, hv⟩
  · show m.isNone = true → d.isNone = true
    intro hm
    rw [hm] at hc
    simpa using hc
  · show m.isNone = true → m.getD 1 = 1
    intro hm
    match m, hm with
    | none, _ => rfl
  · show d.isNone = true → d.getD 1 = 1
    intro hd
    match d, hd with
    | none, _ => rfl

lemma parse_ok_from_new (x : PyObj) (fd : fuzzydate)
    (h : fuzzy_fromisoformat x = .ok fd) :
    ∃ y m d, fuzzydate.new y m d = .ok fd := by
  match x with
  | .nonStr => exact absurd h (by simp [fuzzy_fromisoformat])
  | .str s =>
    rw [fuzzy_fromisoformat] at h
    by_cases h10 : (!(s.length == 10)) = true
    · rw [if_pos h10] at h
      exact absurd h (by simp)
    rw [if_neg h10] at h
    by_cases h4 : (!(s.getD 4 ' ' == '-')) = true
    · rw [if_pos h4] at h
      exact absurd h (by simp)
    rw [if_neg h4] at h
    by_cases h7 : (!(s.getD 7 ' ' == '-')) = true
    · rw [if_pos h7] at h
      exact absurd h (by simp)
    rw [if_neg h7] at h
    dsimp only [] at h
    match hday : parseDayField s ((s.drop 8).take 2) with
    | .error e =>
      rw [hday, ebind_error] at h
      exact absurd h (by simp)
    | .ok day =>
      rw [hday, ebind_ok] at h
      match hmonth : parseMonthField s ((s.drop 5).take 2) ((s.drop 8).take 2) day with
      | .error e =>
        rw [hmonth, ebind_error] at h
        exact absurd h (by simp)
      | .ok month =>
        rw [hmonth, ebind_ok] at h
        match hyear : parseYearField (s.take 4) with
        | .error e =>
          rw [hyear, ebind_error] at h
          exact absurd h (by simp)
        | .ok year =>
          rw [hyear, ebind_ok] at h
          exact ⟨year, month, day, h⟩

/-! ## Shape and unfolding helpers -/

lemma length_one_shape (ds : List Char) (h : ds.length = 1) : ∃ a, ds = [a] := by
  match ds with
  | [a] => exact ⟨a, rfl⟩

lemma length_ten_shape (s : List Char) (h : s.length = 10) :
    ∃ c0 c1 c2 c3 c4 c5 c6 c7 c8 c9, s = [c0, c1, c2, c3, c4, c5, c6, c7, c8, c9] := by
  match s with
  | [c0, c1, c2, c3, c4, c5, c6, c7, c8, c9] =>
    exact ⟨c0, c1, c2, c3, c4, c5, c6, c7, c8, c9, rfl⟩

lemma parse_unfold10 (c0 c1 c2 c3 c5 c6 c8 c9 : Char) :
    fuzzy_fromisoformat (.str [c0, c1, c2, c3, '-', c5, c6, '-', c8, c9]) = (do
      let day ← parseDayField [c0, c1, c2, c3, '-', c5, c6, '-', c8, c9] [c8, c9]
      let month ← parseMonthField [c0, c1, c2, c3, '-', c5, c6, '-', c8, c9] [c5, c6] [c8, c9] day
      let year ← parseYearField [c0, c1, c2, c3]
      fuzzydate.new year month day) := by
  rw [fuzzy_fromisoformat]
  rw [if_neg (by simp), if_neg (by simp), if_neg (by simp)]
  rfl

lemma daysInMonth_le_31 (y m : Int) : date.daysInMonth y m ≤ 31 := by
  rw [date.daysInMonth]
  split
  · split <;> omega
  · split <;> omega

lemma opt_restore (m : Option Int) : (if m.isNone = true then none else some (m.getD 1)) = m := by
  cases m <;> rfl

lemma new_kind_cases (y : Int) (m d : Option Int) (k : ErrKind)
    (h : errKindOf (fuzzydate.new y m d) = some k) :
    k = .invalidCombination ∨ k = .invalidDate := by
  rw [fuzzydate.new] at h
  by_cases hc : (m.isNone && !d.isNone) = true
  · rw [if_pos hc] at h
    simp [errKindOf, Err.kind] at h
    exact Or.inl h.symm
  · rw [if_neg hc] at h
    by_cases hv : date.valid y (m.getD 1) (d.getD 1) = true
    · rw [if_pos hv] at h
      simp [errKindOf] at h
    · rw [if_neg hv] at h
      simp [errKindOf, Err.kind] at h
      exact Or.inr h.symm

lemma year_new_kind (yyyy : List Char) (m d : Option Int) (k : ErrKind)
    (h : errKindOf ((parseYearField yyyy) >>= fun y => fuzzydate.new y m d) = some k) :
    k = .invalidYear ∨ k = .invalidCombination ∨ k = .invalidDate := by
  match hy : parseYearField yyyy with
  | .error e =>
    rw [hy, ebind_error] at h
    rw [parseYearField] at hy
    match hpy : pyInt yyyy with
    | some v => rw [hpy] at hy; exact absurd hy (by simp)
    | none =>
      rw [hpy] at hy
      have := Except.error.inj hy
      subst this
      simp [errKindOf, Err.kind] at h
      exact Or.inl h.symm
  | .ok yv =>
    rw [hy, ebind_ok] at h
    exact Or.inr (new_kind_cases yv m d k h)

/-! ## The claims -/

/-- C6: `fromisoformat` and `isoformat` are disabled: for every input they
fail with the `NotSupported` error whose message names the fuzzy-aware
replacement (`fuzzy_fromisoformat` respectively `fuzzy_isoformat`), and
neither ever succeeds. -/
theorem c6_disabled_iso_paths :
    (∀ x : PyObj, fromisoformat x = .error (.notSupported
      "`fromisoformat` is not supported for fuzzy dates; use `fuzzy_fromisoformat` instead")) ∧
    (∀ fd : fuzzydate, isoformat fd = .error (.notSupported
      "`isoformat` is not supported for fuzzy dates; use `fuzzy_isoformat` instead")) :=
  ⟨fun _ => rfl, fun _ => rfl⟩

/-- C8: the default string conversion is `fuzzy_isoformat` with the default
marker `?`, and on the instance built from `(2020, 6, absent)` it yields
`"2020-06-??"`. -/
theorem c8_default_str :
    (∀ fd : fuzzydate, pyStr fd = fuzzy_isoformat fd ['?']) ∧
    fuzzydate.new 2020 (some 6) none = .ok ⟨2020, 6, 1, false, true⟩ ∧
    pyStr ⟨2020, 6, 1, false, true⟩ = .ok "2020-06-??".data :=
  ⟨fun _ => rfl, by decide, by decide⟩

/-- C9: the debug representation of any constructed instance shows the type
name and the three logical inputs, a fuzzy field rendered as the absent
marker `None` rather than the stored `1`; on the `(2020, 6, absent)`
instance it is `"fuzzydate(2020, 6, None)"`. -/
theorem c9_repr_logical :
    (∀ (y : Int) (m d : Option Int) (fd : fuzzydate), fuzzydate.new y m d = .ok fd →
      pyRepr fd = "fuzzydate(" ++ pyIntStr y ++ ", " ++ pyShowOpt m ++ ", "
        ++ pyShowOpt d ++ ")") ∧
    fuzzydate.new 2020 (some 6) none = .ok ⟨2020, 6, 1, false, true⟩ ∧
    pyRepr ⟨2020, 6, 1, false, true⟩ = "fuzzydate(2020, 6, None)" := by
  refine ⟨?_, by decide, by decide⟩
  intro y m d fd h
  obtain ⟨hc, hv, hfd⟩ := new_ok_elim y m d fd h
  subst hfd
  rw [pyRepr]
  show "fuzzydate(" ++ pyIntStr y ++ ", "
      ++ pyShowOpt (if m.isNone = true then none else some (m.getD 1)) ++ ", "
      ++ pyShowOpt (if d.isNone = true then none else some (d.getD 1)) ++ ")" = _
  rw [opt_restore m, opt_restore d]

/-- C9 witness: the general representation theorem applied to the instance
built from `(2020, 6, absent)`. -/
theorem c9_repr_logical_witness :
    pyRepr ⟨2020, 6, 1, false, true⟩ = "fuzzydate(" ++ pyIntStr 2020 ++ ", "
      ++ pyShowOpt (some 6) ++ ", " ++ pyShowOpt none ++ ")" :=
  c9_repr_logical.1 2020 (some 6) none ⟨2020, 6, 1, false, true⟩ (by decide)

/-- C5: every value produced by the constructor or the fuzzy parser satisfies
the data-model invariants (`FdInv`): `fuzzy_month` implies `fuzzy_day`, a
fuzzy month is stored as `1`, a fuzzy day is stored as `1`, and the stored
triple is a valid calendar date. In this pure embedding every operation on
`fuzzydate` is a function that leaves its argument unchanged, so no field
mutates after construction. -/
theorem c5_invariants :
    (∀ (y : Int) (m d : Option Int) (fd : fuzzydate),
      fuzzydate.new y m d = .ok fd → FdInv fd) ∧
    (∀ (x : PyObj) (fd : fuzzydate), fuzzy_fromisoformat x = .ok fd → FdInv fd) := by
  refine ⟨new_inv, ?_⟩
  intro x fd h
  obtain ⟨y, m, d, hnew⟩ := parse_ok_from_new x fd h
  exact new_inv y m d fd hnew

/-- C5 witness: the invariants hold of the concrete instance parsed from
`"2020-06-??"`. -/
theorem c5_invariants_witness : FdInv ⟨2020, 6, 1, false, true⟩ :=
  c5_invariants.2 (.str "2020-06-??".data) ⟨2020, 6, 1, false, true⟩ (by decide)

/-- C2: constructing with a month absent and a day present fails with
`InvalidCombination` (and the message echoes the offending triple);
otherwise, if the triple with absent fields replaced by `1` is a valid
calendar date, construction succeeds with the logical values equal to the
inputs, and if it is not, construction fails with `InvalidDate`. -/
theorem c2_constructor :
    (∀ (y : Int) (m d : Option Int),
      (m = none ∧ d ≠ none →
        errKindOf (fuzzydate.new y m d) = some .invalidCombination) ∧
      (¬(m = none ∧ d ≠ none) →
        (date.valid y (m.getD 1) (d.getD 1) = true →
          ∃ fd, fuzzydate.new y m d = .ok fd ∧ fd.year = y ∧ logicalMonth fd = m ∧
            logicalDay fd = d ∧ fd.fuzzy_month = m.isNone ∧ fd.fuzzy_day = d.isNone) ∧
        (date.valid y (m.getD 1) (d.getD 1) = false →
          errKindOf (fuzzydate.new y m d) = some .invalidDate))) ∧
    fuzzydate.new 2020 none (some 27) = .error (.invalidCombination
      "A date cannot have a fuzzy month and a defined day: (2020, None, 27)") := by
  refine ⟨?_, by decide⟩
  intro y m d
  refine ⟨?_, ?_⟩
  · rintro ⟨hm, hd⟩
    subst hm
    match d, hd with
    | some dv, _ =>
      rw [fuzzydate.new, if_pos (by rfl)]
      rfl
  · intro hc
    have hcb : (m.isNone && !d.isNone) = false := by
      match m, d with
      | none, none => rfl
      | none, some dv => exact absurd ⟨rfl, by simp⟩ hc
      | some mv, none => rfl
      | some mv, some dv => rfl
    refine ⟨?_, ?_⟩
    · intro hv
      refine ⟨⟨y, m.getD 1, d.getD 1, m.isNone, d.isNone⟩, new_ok_intro y m d hcb hv,
        rfl, ?_, ?_, rfl, rfl⟩
      · show (if m.isNone = true then none else some (m.getD 1)) = m
        exact opt_restore m
      · show (if d.isNone = true then none else some (d.getD 1)) = d
        exact opt_restore d
    · intro hv
      have hcn : ¬((m.isNone && !d.isNone) = true) := by
        rw [hcb]
        intro hff
        exact absurd hff (by decide)
      rw [fuzzydate.new, if_neg hcn, if_neg (by rw [hv]; intro hff; exact absurd hff (by decide))]
      rfl

/-- C2 witness: the three branches of the constructor contract at concrete
inputs. -/
theorem c2_constructor_witness :
    errKindOf (fuzzydate.new 2020 none (some 27)) = some .invalidCombination ∧
    errKindOf (fuzzydate.new 2021 (some 2) (some 29)) = some .invalidDate ∧
    (∃ fd, fuzzydate.new 2020 (some 6) none = .ok fd ∧ fd.year = 2020 ∧
      logicalMonth fd = some 6 ∧ logicalDay fd = none ∧
      fd.fuzzy_month = (some (6 : Int)).isNone ∧ fd.fuzzy_day = (none : Option Int).isNone) :=
  ⟨(c2_constructor.1 2020 none (some 27)).1 ⟨rfl, by decide⟩,
   ((c2_constructor.1 2021 (some 2) (some 29)).2 (by simp)).2 (by decide),
   ((c2_constructor.1 2020 (some 6) none).2 (by simp)).1 (by decide)⟩

/-- C7: `fuzzy_isoformat` fails with `InvalidMarker` exactly when the marker
is not a single character or is a decimal digit; otherwise it returns the
4-digit zero-padded year, `-`, the month field (doubled marker when fuzzy,
else 2-digit zero-padded), `-`, and the day field likewise. -/
theorem c7_fuzzy_isoformat :
    (∀ (fd : fuzzydate) (marker : List Char),
      errKindOf (fuzzy_isoformat fd marker) = some .invalidMarker ↔
        marker.length ≠ 1 ∨ ∃ c, marker = [c] ∧ c.isDigit = true) ∧
    (∀ (fd : fuzzydate) (q : Char), q.isDigit = false →
      fuzzy_isoformat fd [q] = .ok (pyFormat0d 4 fd.year ++ ['-']
        ++ (if fd.fuzzy_month then [q, q] else pyFormat0d 2 fd.month) ++ ['-']
        ++ (if fd.fuzzy_day then [q, q] else pyFormat0d 2 fd.day))) := by
  constructor
  · intro fd marker
    by_cases hb : (marker.length != 1 || isSub marker pyDigits) = true
    · rw [fuzzy_isoformat, if_pos hb]
      refine iff_of_true rfl ?_
      rcases Bool.or_eq_true_iff.mp hb with h1 | h2
      · exact Or.inl (by simpa using h1)
      · by_cases hlen : marker.length = 1
        · obtain ⟨a, ha⟩ := length_one_shape marker hlen
          subst ha
          rw [isSub_single_digits] at h2
          exact Or.inr ⟨a, rfl, h2⟩
        · exact Or.inl hlen
    · have hb2 : (marker.length != 1 || isSub marker pyDigits) = false := by simpa using hb
      rw [fuzzy_isoformat, if_neg (by rw [hb2]; intro hff; exact absurd hff (by decide))]
      have hlen : marker.length = 1 := by
        have := Bool.or_eq_false_iff.mp hb2
        simpa using this.1
      have hsub : isSub marker pyDigits = false := (Bool.or_eq_false_iff.mp hb2).2
      refine iff_of_false (by simp [errKindOf]) ?_
      rintro (h | ⟨c, hm, hd⟩)
      · exact h hlen
      · subst hm
        rw [isSub_single_digits, hd] at hsub
        exact absurd hsub (by decide)
  · intro fd q hq
    rw [fuzzy_isoformat, if_neg (by simp [isSub_single_digits, hq])]
    rfl

/-- C7 witness: the success equation at a concrete instance and marker, the
marker hypothesis discharged by evaluation. -/
theorem c7_fuzzy_isoformat_witness :
    fuzzy_isoformat ⟨2020, 6, 1, false, true⟩ ['?'] =
      .ok (pyFormat0d 4 (2020 : Int) ++ ['-']
        ++ (if false then ['?', '?'] else pyFormat0d 2 (6 : Int)) ++ ['-']
        ++ (if true then ['?', '?'] else pyFormat0d 2 (1 : Int))) :=
  c7_fuzzy_isoformat.2 ⟨2020, 6, 1, false, true⟩ '?' (by decide)

/-- C10: equality, hashing and ordering are inherited from the stored exact
date and ignore the fuzzy flags; the instances built from
`(2020, 6, absent)` and `(2020, 6, 1)` compare equal (and equal to the
plain date state `2020-06-01`) although their logical day values and their
string conversions differ. -/
theorem c10_inherited_comparison :
    (∀ a b : fuzzydate, toDate a = toDate b →
      pyEq a b = true ∧ pyHash a = pyHash b ∧ pyLt a b = false) ∧
    (∀ a b : fuzzydate, pyEq a b = true ↔ toDate a = toDate b) ∧
    fuzzydate.new 2020 (some 6) none = .ok ⟨2020, 6, 1, false, true⟩ ∧
    fuzzydate.new 2020 (some 6) (some 1) = .ok ⟨2020, 6, 1, false, false⟩ ∧
    pyEq ⟨2020, 6, 1, false, true⟩ ⟨2020, 6, 1, false, false⟩ = true ∧
    pyHash ⟨2020, 6, 1, false, true⟩ = pyHash ⟨2020, 6, 1, false, false⟩ ∧
    date.cmpEq (toDate ⟨2020, 6, 1, false, true⟩) ⟨2020, 6, 1⟩ = true ∧
    logicalDay ⟨2020, 6, 1, false, true⟩ ≠ logicalDay ⟨2020, 6, 1, false, false⟩ ∧
    pyStr ⟨2020, 6, 1, false, true⟩ ≠ pyStr ⟨2020, 6, 1, false, false⟩ := by
  refine ⟨?_, ?_, by decide, by decide, by decide, by decide, by decide, by decide, by decide⟩
  · intro a b h
    refine ⟨?_, ?_, ?_⟩
    · rw [pyEq, h]
      simp [date.cmpEq]
    · rw [pyHash, h]
      rfl
    · rw [pyLt, h]
      simp [date.cmpLt]
  · intro a b
    constructor
    · intro h
      rw [pyEq, date.cmpEq] at h
      simp only [Bool.and_eq_true, beq_iff_eq] at h
      rw [toDate, toDate]
      rw [date.mk.injEq]
      exact ⟨h.1.1, h.1.2, h.2⟩
    · intro h
      rw [pyEq, h]
      simp [date.cmpEq]

/-- C10 witness: the flag-blind comparison theorem applied to the two
concrete instances whose stored states coincide and whose flags differ. -/
theorem c10_inherited_comparison_witness :
    pyEq ⟨2020, 6, 1, false, true⟩ ⟨2020, 6, 1, false, false⟩ = true ∧
    pyHash ⟨2020, 6, 1, false, true⟩ = pyHash ⟨2020, 6, 1, false, false⟩ ∧
    pyLt ⟨2020, 6, 1, false, true⟩ ⟨2020, 6, 1, false, false⟩ = false :=
  c10_inherited_comparison.1 ⟨2020, 6, 1, false, true⟩ ⟨2020, 6, 1, false, false⟩ rfl

lemma parseDayField_eval_some (s dd : List Char) (d : Int) (h : pyInt dd = some d) :
    parseDayField s dd = .ok (some d) := by
  rw [parseDayField, h]

lemma parseDayField_eval_none (s dd : List Char) (h : pyInt dd = none) :
    parseDayField s dd =
      if !(dd.getD 0 ' ' == dd.getD 1 ' ') then
        .error (.inconsistentMarker ("Inconsistent marker usage in fuzzy date: " ++ String.mk s))
      else .ok none := by
  rw [parseDayField, h]

lemma parseMonthField_eval_some (s mm dd : List Char) (day : Option Int) (m : Int)
    (h : pyInt mm = some m) : parseMonthField s mm dd day = .ok (some m) := by
  rw [parseMonthField, h]

lemma parseMonthField_eval_none (s mm dd : List Char) (day : Option Int)
    (h : pyInt mm = none) :
    parseMonthField s mm dd day =
      if !(mm.getD 0 ' ' == mm.getD 1 ' ')
          || (day == none && !(mm.getD 0 ' ' == dd.getD 0 ' ')) then
        .error (.inconsistentMarker ("Inconsistent marker usage in fuzzy date: " ++ String.mk s))
      else .ok none := by
  rw [parseMonthField, h]

lemma year_new_not_marker (yyyy : List Char) (m d : Option Int)
    (h : errKindOf ((parseYearField yyyy) >>= fun y => fuzzydate.new y m d) =
      some .inconsistentMarker) : False := by
  rcases year_new_kind yyyy m d .inconsistentMarker h with h1 | h1 | h1 <;>
    exact absurd h1 (by decide)

/-- C3: the parser's checks run in a fixed order and the first failure wins:
`TypeError` for a non-string, `InvalidLength` for length other than `10`,
`InvalidSeparator` for a wrong character at index 4 or 7, then the day-field
marker check, then the month-field marker check, then `InvalidYear` for an
unparseable year field, and finally any constructor error is propagated;
in particular `"????-06-27"` fails with `InvalidYear`. -/
theorem c3_check_order :
    fuzzy_fromisoformat .nonStr =
      .error (.typeError "fuzzy_fromisoformat: argument must be str") ∧
    (∀ s : List Char, s.length ≠ 10 →
      errKindOf (fuzzy_fromisoformat (.str s)) = some .invalidLength) ∧
    (∀ s : List Char, s.length = 10 → (s.getD 4 ' ' ≠ '-' ∨ s.getD 7 ' ' ≠ '-') →
      errKindOf (fuzzy_fromisoformat (.str s)) = some .invalidSeparator) ∧
    (∀ s : List Char, s.length = 10 → s.getD 4 ' ' = '-' → s.getD 7 ' ' = '-' →
      pyInt ((s.drop 8).take 2) = none →
      ((s.drop 8).take 2).getD 0 ' ' ≠ ((s.drop 8).take 2).getD 1 ' ' →
      errKindOf (fuzzy_fromisoformat (.str s)) = some .inconsistentMarker) ∧
    (∀ (s : List Char) (day month : Option Int),
      s.length = 10 → s.getD 4 ' ' = '-' → s.getD 7 ' ' = '-' →
      parseDayField s ((s.drop 8).take 2) = .ok day →
      parseMonthField s ((s.drop 5).take 2) ((s.drop 8).take 2) day = .ok month →
      pyInt (s.take 4) = none →
      errKindOf (fuzzy_fromisoformat (.str s)) = some .invalidYear) ∧
    (∀ (s : List Char) (day month : Option Int) (y : Int),
      s.length = 10 → s.getD 4 ' ' = '-' → s.getD 7 ' ' = '-' →
      parseDayField s ((s.drop 8).take 2) = .ok day →
      parseMonthField s ((s.drop 5).take 2) ((s.drop 8).take 2) day = .ok month →
      pyInt (s.take 4) = some y →
      fuzzy_fromisoformat (.str s) = fuzzydate.new y month day) ∧
    errKindOf (fuzzy_fromisoformat (.str "????-06-27".data)) = some .invalidYear := by
  refine ⟨rfl, ?_, ?_, ?_, ?_, ?_, by decide⟩
  · intro s h
    rw [fuzzy_fromisoformat, if_pos (by simp [h])]
    rfl
  · intro s h10 hsep
    obtain ⟨c0, c1, c2, c3, c4, c5, c6, c7, c8, c9, hs⟩ := length_ten_shape s h10
    subst hs
    simp only [List.getD_cons_succ, List.getD_cons_zero] at hsep
    rw [fuzzy_fromisoformat, if_neg (by simp)]
    by_cases hc4 : c4 = '-'
    · subst hc4
      have hc7 : c7 ≠ '-' := by
        rcases hsep with h | h
        · exact absurd rfl h
        · exact h
      rw [if_neg (by simp), if_pos (by simp [hc7])]
      rfl
    · rw [if_pos (by simp [hc4])]
      rfl
  · intro s h10 h4 h7 hpy hne
    obtain ⟨c0, c1, c2, c3, c4, c5, c6, c7, c8, c9, hs⟩ := length_ten_shape s h10
    subst hs
    simp only [List.getD_cons_succ, List.getD_cons_zero] at h4 h7
    subst h4
    subst h7
    simp only [List.drop_succ_cons, List.drop_zero, List.take_succ_cons, List.take_zero,
      List.getD_cons_succ, List.getD_cons_zero] at hpy hne
    rw [parse_unfold10, parseDayField_eval_none _ _ hpy,
      if_pos (by simp only [List.getD_cons_succ, List.getD_cons_zero]; simp [hne]),
      ebind_error]
    rfl
  · intro s day month h10 h4 h7 hday hmonth hyear
    obtain ⟨c0, c1, c2, c3, c4, c5, c6, c7, c8, c9, hs⟩ := length_ten_shape s h10
    subst hs
    simp only [List.getD_cons_succ, List.getD_cons_zero] at h4 h7
    subst h4
    subst h7
    simp only [List.drop_succ_cons, List.drop_zero, List.take_succ_cons, List.take_zero]
      at hday hmonth hyear
    rw [parse_unfold10, hday, ebind_ok, hmonth, ebind_ok, parseYearField, hyear, ebind_error]
    rfl
  · intro s day month y h10 h4 h7 hday hmonth hyear
    obtain ⟨c0, c1, c2, c3, c4, c5, c6, c7, c8, c9, hs⟩ := length_ten_shape s h10
    subst hs
    simp only [List.getD_cons_succ, List.getD_cons_zero] at h4 h7
    subst h4
    subst h7
    simp only [List.drop_succ_cons, List.drop_zero, List.take_succ_cons, List.take_zero]
      at hday hmonth hyear
    rw [parse_unfold10, hday, ebind_ok, hmonth, ebind_ok, parseYearField, hyear, ebind_ok]

/-- C3 witness: the length check and the year check fired at concrete
inputs through the order theorem. -/
theorem c3_check_order_witness :
    errKindOf (fuzzy_fromisoformat (.str "2020-6-27".data)) = some .invalidLength ∧
    errKindOf (fuzzy_fromisoformat (.str "2020_06_27".data)) = some .invalidSeparator :=
  ⟨c3_check_order.2.1 "2020-6-27".data (by decide),
   c3_check_order.2.2.1 "2020_06_27".data (by decide) (by decide)⟩

/-- C4: with the type, length and separator checks passed, the parser fails
with `InconsistentMarker` exactly when an unparseable day field has two
different characters, or when an unparseable month field has two different
characters, or when both fields are markers and the month's marker differs
from the day's; the cross-field requirement applies only when the day was
determined absent, so `"2020-##-??"` fails with `InconsistentMarker` while
`"2020-##-27"` passes the marker checks and is rejected at construction. -/
theorem c4_marker_consistency :
    (∀ s : List Char, s.length = 10 → s.getD 4 ' ' = '-' → s.getD 7 ' ' = '-' →
      (errKindOf (fuzzy_fromisoformat (.str s)) = some .inconsistentMarker ↔
        (pyInt ((s.drop 8).take 2) = none ∧
          ((s.drop 8).take 2).getD 0 ' ' ≠ ((s.drop 8).take 2).getD 1 ' ') ∨
        ((pyInt ((s.drop 8).take 2) = none →
            ((s.drop 8).take 2).getD 0 ' ' = ((s.drop 8).take 2).getD 1 ' ') ∧
          pyInt ((s.drop 5).take 2) = none ∧
          (((s.drop 5).take 2).getD 0 ' ' ≠ ((s.drop 5).take 2).getD 1 ' ' ∨
            (pyInt ((s.drop 8).take 2) = none ∧
              ((s.drop 5).take 2).getD 0 ' ' ≠ ((s.drop 8).take 2).getD 0 ' '))))) ∧
    errKindOf (fuzzy_fromisoformat (.str "2020-##-??".data)) = some .inconsistentMarker ∧
    errKindOf (fuzzy_fromisoformat (.str "2020-06-?#".data)) = some .inconsistentMarker ∧
    errKindOf (fuzzy_fromisoformat (.str "2020-##-27".data)) = some .invalidCombination := by
  refine ⟨?_, by decide, by decide, by decide⟩
  intro s h10 h4 h7
  obtain ⟨c0, c1, c2, c3, c4, c5, c6, c7, c8, c9, hs⟩ := length_ten_shape s h10
  subst hs
  simp only [List.getD_cons_succ, List.getD_cons_zero] at h4 h7
  subst h4
  subst h7
  simp only [List.drop_succ_cons, List.drop_zero, List.take_succ_cons, List.take_zero,
    List.getD_cons_succ, List.getD_cons_zero]
  rw [parse_unfold10]
  cases hd : pyInt [c8, c9] with
  | none =>
    by_cases h89 : c8 = c9
    · rw [parseDayField_eval_none _ _ hd, if_neg (by simp [h89]), ebind_ok]
      cases hm : pyInt [c5, c6] with
      | none =>
        by_cases h56 : c5 = c6
        · by_cases h58 : c5 = c8
          · rw [parseMonthField_eval_none _ _ _ _ hm,
              if_neg (by simp [h56, h56.symm.trans h58]), ebind_ok]
            refine iff_of_false (year_new_not_marker [c0, c1, c2, c3] none none) ?_
            rintro (⟨_, hne⟩ | ⟨_, _, (hne | ⟨_, hne⟩)⟩)
            · exact hne h89
            · exact hne h56
            · exact hne h58
          · rw [parseMonthField_eval_none _ _ _ _ hm,
              if_pos (by simp [h58]), ebind_error]
            exact iff_of_true rfl (Or.inr ⟨fun _ => h89, rfl, Or.inr ⟨rfl, h58⟩⟩)
        · rw [parseMonthField_eval_none _ _ _ _ hm, if_pos (by simp [h56]), ebind_error]
          exact iff_of_true rfl (Or.inr ⟨fun _ => h89, rfl, Or.inl h56⟩)
      | some mv =>
        rw [parseMonthField_eval_some _ _ _ _ mv hm, ebind_ok]
        refine iff_of_false (year_new_not_marker [c0, c1, c2, c3] (some mv) none) ?_
        rintro (⟨_, hne⟩ | ⟨_, hmn, _⟩)
        · exact hne h89
        · cases hmn
    · rw [parseDayField_eval_none _ _ hd, if_pos (by simp [h89]), ebind_error]
      exact iff_of_true rfl (Or.inl ⟨rfl, h89⟩)
  | some dv =>
    rw [parseDayField_eval_some _ _ dv hd, ebind_ok]
    cases hm : pyInt [c5, c6] with
    | none =>
      by_cases h56 : c5 = c6
      · rw [parseMonthField_eval_none _ _ _ _ hm, if_neg (by simp [h56]), ebind_ok]
        refine iff_of_false (year_new_not_marker [c0, c1, c2, c3] none (some dv)) ?_
        rintro (⟨hdn, _⟩ | ⟨_, _, (hne | ⟨hdn, _⟩)⟩)
        · cases hdn
        · exact hne h56
        · cases hdn
      · rw [parseMonthField_eval_none _ _ _ _ hm, if_pos (by simp [h56]), ebind_error]
        refine iff_of_true rfl (Or.inr ⟨?_, rfl, Or.inl h56⟩)
        intro hdn
        cases hdn
    | some mv =>
      rw [parseMonthField_eval_some _ _ _ _ mv hm, ebind_ok]
      refine iff_of_false (year_new_not_marker [c0, c1, c2, c3] (some mv) (some dv)) ?_
      rintro (⟨hdn, _⟩ | ⟨_, hmn, _⟩)
      · cases hdn
      · cases hmn

/-- C4 witness: the marker-consistency characterization applied to
`"2020-##-??"`, whose month marker differs from its day marker. -/
theorem c4_marker_consistency_witness :
    errKindOf (fuzzy_fromisoformat (.str "2020-##-??".data)) = some .inconsistentMarker :=
  (c4_marker_consistency.1 "2020-##-??".data (by decide) (by decide) (by decide)).mpr
    (Or.inr ⟨fun _ => by decide, by decide, Or.inr ⟨by decide, by decide⟩⟩)

lemma parseYearField_eval_some (yyyy : List Char) (v : Int) (h : pyInt yyyy = some v) :
    parseYearField yyyy = .ok v := by
  rw [parseYearField, h]

/-- C1 counterexample: the marker `'١'` (U+0661, ARABIC-INDIC DIGIT ONE) is
a single character outside `string.digits`, so `fuzzy_isoformat` accepts
it as a valid marker, but CPython's `int()` parses the doubled marker as
the number `11`: the instance built from `(2020, 6, absent)` formats to
`"2020-06-١١"` and parses back with stored day `11` and
`fuzzy_day = false` — the year, flags and non-fuzzy fields are not
preserved, refuting the round trip as stated for this valid marker. -/
theorem c1_roundtrip_counterexample :
    fuzzydate.new 2020 (some 6) none = .ok ⟨2020, 6, 1, false, true⟩ ∧
    fuzzy_isoformat ⟨2020, 6, 1, false, true⟩ ['١'] = .ok "2020-06-١١".data ∧
    fuzzy_fromisoformat (.str "2020-06-١١".data) = .ok ⟨2020, 6, 11, false, false⟩ ∧
    ¬((⟨2020, 6, 11, false, false⟩ : fuzzydate).fuzzy_day =
      (⟨2020, 6, 1, false, true⟩ : fuzzydate).fuzzy_day) :=
  ⟨by decide, by decide, by decide, by decide⟩

/-- C1 (amended): for every legally constructed instance and every single
marker character that is not a Unicode decimal digit, parsing the output
of `fuzzy_isoformat` with `fuzzy_fromisoformat` succeeds and yields an
instance with the same year, the same fuzzy flags, and the same month and
day values on the non-fuzzy fields. The amendment narrows the claim's
"single non-digit character" from the formatter's ASCII `string.digits`
check to all Unicode decimal digits, which is exactly what
`c1_roundtrip_counterexample` forces: a non-ASCII decimal digit passes the
marker check yet its doubled field parses as a number on the way back. -/
theorem c1_roundtrip :
    ∀ (y : Int) (m d : Option Int) (fd : fuzzydate) (q : Char),
      fuzzydate.new y m d = .ok fd → isPyDigit q = false →
      ∃ s fd2, fuzzy_isoformat fd [q] = .ok s ∧ fuzzy_fromisoformat (.str s) = .ok fd2 ∧
        fd2.year = fd.year ∧ fd2.fuzzy_month = fd.fuzzy_month ∧
        fd2.fuzzy_day = fd.fuzzy_day ∧
        (fd.fuzzy_month = false → fd2.month = fd.month) ∧
        (fd.fuzzy_day = false → fd2.day = fd.day) := by
  intro y m d fd q hnew hq
  have hqd : q.isDigit = false := isDigit_false_of_isPyDigit_false q hq
  obtain ⟨hc, hv, hfd⟩ := new_ok_elim y m d fd hnew
  rw [date.valid] at hv
  simp only [Bool.and_eq_true, decide_eq_true_eq] at hv
  obtain ⟨⟨⟨⟨⟨hy1, hy2⟩, hm1⟩, hm2⟩, hd1⟩, hd2⟩ := hv
  have hdm := daysInMonth_le_31 y (m.getD 1)
  obtain ⟨hyl, hyd, hyi⟩ := format0d_spec 4 y (by omega) (by omega) (by decide)
  obtain ⟨a0, a1, a2, a3, ha⟩ := length_four_shape _ hyl
  rw [ha] at hyi
  match m, d with
  | none, some dv =>
    simp at hc
  | none, none =>
    subst hfd
    refine ⟨[a0, a1, a2, a3, '-', q, q, '-', q, q], _, ?_, ?_, rfl, rfl, rfl,
      fun _ => rfl, fun _ => rfl⟩
    · rw [fuzzy_isoformat, if_neg (by simp [isSub_single_digits, hqd])]
      simp [ha]
    · rw [parse_unfold10,
        parseDayField_eval_none _ _ (pyInt_pair_none q hq), if_neg (by simp), ebind_ok,
        parseMonthField_eval_none _ _ _ _ (pyInt_pair_none q hq), if_neg (by simp), ebind_ok,
        parseYearField_eval_some _ _ hyi, ebind_ok]
      exact hnew
  | some mv, none =>
    subst hfd
    simp only [Option.getD_some] at hm1 hm2
    obtain ⟨hml, hmd, hmi⟩ := format0d_spec 2 mv (by omega) (by omega) (by decide)
    obtain ⟨b0, b1, hb⟩ := length_two_shape _ hml
    rw [hb] at hmi
    refine ⟨[a0, a1, a2, a3, '-', b0, b1, '-', q, q], _, ?_, ?_, rfl, rfl, rfl,
      fun _ => rfl, fun _ => rfl⟩
    · rw [fuzzy_isoformat, if_neg (by simp [isSub_single_digits, hqd])]
      simp [ha, hb]
    · rw [parse_unfold10,
        parseDayField_eval_none _ _ (pyInt_pair_none q hq), if_neg (by simp), ebind_ok,
        parseMonthField_eval_some _ _ _ _ mv hmi, ebind_ok,
        parseYearField_eval_some _ _ hyi, ebind_ok]
      exact hnew
  | some mv, some dv =>
    subst hfd
    simp only [Option.getD_some] at hm1 hm2 hd1 hd2 hdm
    obtain ⟨hml, hmd, hmi⟩ := format0d_spec 2 mv (by omega) (by omega) (by decide)
    obtain ⟨b0, b1, hb⟩ := length_two_shape _ hml
    rw [hb] at hmi
    obtain ⟨hdl, hdd, hdi⟩ := format0d_spec 2 dv (by omega) (by omega) (by decide)
    obtain ⟨e0, e1, he⟩ := length_two_shape _ hdl
    rw [he] at hdi
    refine ⟨[a0, a1, a2, a3, '-', b0, b1, '-', e0, e1], _, ?_, ?_, rfl, rfl, rfl,
      fun _ => rfl, fun _ => rfl⟩
    · rw [fuzzy_isoformat, if_neg (by simp [isSub_single_digits, hqd])]
      simp [ha, hb, he]
    · rw [parse_unfold10,
        parseDayField_eval_some _ _ dv hdi, ebind_ok,
        parseMonthField_eval_some _ _ _ _ mv hmi, ebind_ok,
        parseYearField_eval_some _ _ hyi, ebind_ok]
      exact hnew

/-- C1 witness: the amended round trip performed on the instance built from
`(2020, 6, absent)` with the marker `%`, a single character that is not a
Unicode decimal digit. -/
theorem c1_roundtrip_witness :
    ∃ s fd2, fuzzy_isoformat ⟨2020, 6, 1, false, true⟩ ['%'] = .ok s ∧
      fuzzy_fromisoformat (.str s) = .ok fd2 ∧
      fd2.year = (⟨2020, 6, 1, false, true⟩ : fuzzydate).year ∧
      fd2.fuzzy_month = (⟨2020, 6, 1, false, true⟩ : fuzzydate).fuzzy_month ∧
      fd2.fuzzy_day = (⟨2020, 6, 1, false, true⟩ : fuzzydate).fuzzy_day ∧
      ((⟨2020, 6, 1, false, true⟩ : fuzzydate).fuzzy_month = false →
        fd2.month = (⟨2020, 6, 1, false, true⟩ : fuzzydate).month) ∧
      ((⟨2020, 6, 1, false, true⟩ : fuzzydate).fuzzy_day = false →
        fd2.day = (⟨2020, 6, 1, false, true⟩ : fuzzydate).day) :=
  c1_roundtrip 2020 (some 6) none ⟨2020, 6, 1, false, true⟩ '%' (by decide) (by decide)
